import Mathlib

/-!
# Verification of the AccountSetup credential store and session manager

Shallow embedding of the repository's `services/keychainService` module and the
login-lockout logic of `LoginScreen`, together with proofs of the specified
properties.

Modelling conventions:

* The OS keychain (`react-native-keychain`) is an external platform store.  It is
  modelled as a map from service identifiers to stored blobs.  Each primitive
  call (`setGenericPassword`, `getGenericPassword`, `resetGenericPassword`) can
  reject at runtime; every repository function therefore takes one Boolean flag
  per underlying keychain call, `true` meaning the call resolves and `false`
  meaning it throws (the flag plays the role of the platform's nondeterminism).

* The AES cipher (`react-native-crypto-js`) together with `JSON.stringify` /
  `JSON.parse` is modelled by its observable round-trip contract: a stored blob
  is either `Blob.enc v` — a well-formed ciphertext under the application key
  whose decrypted plaintext parses as the JSON value `v` — or
  `Blob.undecodable n`, an opaque payload on which decryption or `JSON.parse`
  throws (tampered ciphertext, corrupted blob, wrong key, or empty string).

* JavaScript performs no schema validation after `JSON.parse`; the `as T` casts
  in the source are erased at runtime.  `JsVal` enumerates the parsed JSON
  shapes that occur in this development: arrays of credential records, session
  records, user-data records, and `JsVal.other` for any other JSON value (on
  which the array/field operations used by the source throw a `TypeError`,
  which the surrounding `try`/`catch` converts into the fallback result).

* `Date.now()` is passed in as an explicit `now : Nat` argument.

* JavaScript's `String.prototype.toLowerCase` is modelled by `toLowerCase`,
  character-wise lowercasing (the basic-latin range, which is what `Char.toLower`
  implements and all that the stored emails exercise).
-/

namespace AccountSetup

/-- A stored credential record (interface `Credential` in `keychainService`). -/
structure Credential where
  email : String
  password : String
  firstName : String
  lastName : String
  phoneNumber : String
deriving DecidableEq, Repr

/-- A session record (interface `Session` in `keychainService`);
`timestamp` is the `Date.now()` millisecond value at creation. -/
structure Session where
  email : String
  timestamp : Nat
deriving DecidableEq, Repr

/-- User profile data (interface `UserData` in `AuthenticationSlice`). -/
structure UserData where
  email : String
  firstName : String
  lastName : String
  phoneNumber : String
deriving DecidableEq, Repr

/-- Parsed JSON values occurring as decrypted slot payloads. `other` stands for
any JSON value that is none of the three record shapes used by the app; the
array and field accesses the source performs on it throw `TypeError`. -/
inductive JsVal where
  | credList (cs : List Credential)
  | sessionObj (s : Session)
  | userObj (u : UserData)
  | other (n : Nat)
deriving DecidableEq, Repr

/-- A blob held in one keychain slot: either a well-formed ciphertext whose
decrypted payload parses as `v`, or a payload on which decryption /
`JSON.parse` throws (tampered, corrupted, wrong key, or empty). -/
inductive Blob where
  | enc (v : JsVal)
  | undecodable (n : Nat)
deriving DecidableEq, Repr

/-- Constant `KEYCHAIN_SERVICE` of `keychainService`. -/
def KEYCHAIN_SERVICE : String := "AccountSetup"

/-- Constant `CREDENTIALS_KEY` of `keychainService`. -/
def CREDENTIALS_KEY : String := "credentials"

/-- Constant `SESSION_KEY` of `keychainService`. -/
def SESSION_KEY : String := "session"

/-- Service identifier of the credentials slot, `AccountSetup_credentials`. -/
def credentialsService : String := KEYCHAIN_SERVICE ++ "_" ++ CREDENTIALS_KEY

/-- Service identifier of the session slot, `AccountSetup_session`. -/
def sessionService : String := KEYCHAIN_SERVICE ++ "_" ++ SESSION_KEY

/-- The OS keychain: a map from service identifier to the stored blob. -/
abbrev Keystore : Type := String → Option Blob

/-- A keychain with every slot absent. -/
def emptyKeystore : Keystore := fun _ => none

/-- Model of `Keychain.getGenericPassword` for a given service (successful call). -/
def getGenericPassword (st : Keystore) (service : String) : Option Blob :=
  st service

/-- Model of `Keychain.setGenericPassword` for a given service (successful call):
overwrites the slot entirely. -/
def setGenericPassword (st : Keystore) (service : String) (b : Blob) : Keystore :=
  fun s => if s = service then some b else st s

/-- Model of `Keychain.resetGenericPassword` for a given service (successful call):
removes the slot. -/
def resetGenericPassword (st : Keystore) (service : String) : Keystore :=
  fun s => if s = service then none else st s

/-- Model of JavaScript `String.prototype.toLowerCase` (character-wise
lowercasing of the basic-latin range). -/
def toLowerCase (s : String) : String :=
  ⟨s.data.map Char.toLower⟩

/-- Function `getCredentialsFromKeychain`: reads and decrypts the credentials slot.
`getOk = false` models the keychain read throwing, which the function's own
`try`/`catch` converts to `[]`; an absent slot or a payload on which
decryption/`JSON.parse` throws also yields `[]`.  A payload that parses as JSON
is returned as-is (the `as Credential[]` cast performs no validation). -/
def getCredentialsFromKeychain (getOk : Bool) (st : Keystore) : JsVal :=
  if getOk then
    match getGenericPassword st credentialsService with
    | some (Blob.enc v) => v
    | some (Blob.undecodable _) => JsVal.credList []
    | none => JsVal.credList []
  else JsVal.credList []

/-- The `findIndex` / replace-in-place-or-append step of
`storeCredentialsInKeychain` on the loaded credential list. -/
def upsertList (em : String) (newCredential : Credential)
    (cs : List Credential) : List Credential :=
  match cs.findIdx? (fun cred => toLowerCase cred.email == em) with
  | some credentialIndex => cs.set credentialIndex newCredential
  | none => cs ++ [newCredential]

/-- Function `storeCredentialsInKeychain`: loads the current list (via
`getCredentialsFromKeychain`, whose internal `catch` swallows read failures),
replaces the entry with matching lowercased email or appends, encrypts and
writes the whole list back.  `getOk`/`setOk` model the two underlying keychain
calls resolving.  If the loaded payload is not an array, the `findIndex` call
throws and the outer `catch` returns `false`.  Returns the new keychain state
and the function's Boolean result. -/
def storeCredentialsInKeychain (getOk setOk : Bool) (st : Keystore)
    (email password firstName lastName phoneNumber : String) : Keystore × Bool :=
  match getCredentialsFromKeychain getOk st with
  | JsVal.credList existingCredentials =>
    let newCredential : Credential :=
      { email := toLowerCase email, password := password, firstName := firstName,
        lastName := lastName, phoneNumber := phoneNumber }
    let updatedCredentials := upsertList (toLowerCase email) newCredential existingCredentials
    if setOk then
      (setGenericPassword st credentialsService (Blob.enc (JsVal.credList updatedCredentials)),
       true)
    else (st, false)
  | _ => (st, false)

/-- Function `validateCredentials`: true iff some stored entry's lowercased email equals
the lowercased input email and its password is strictly equal to the input.  A
non-array payload makes `find` throw; the `catch` returns `false`. -/
def validateCredentials (getOk : Bool) (st : Keystore)
    (email password : String) : Bool :=
  match getCredentialsFromKeychain getOk st with
  | JsVal.credList credentials =>
    (credentials.find? (fun cred =>
      toLowerCase cred.email == toLowerCase email && cred.password == password)).isSome
  | _ => false

/-- Function `getCredentialByEmail`: first stored entry whose lowercased email equals the
lowercased input email; `none` otherwise.  A non-array payload makes `find`
throw; the `catch` returns `none`. -/
def getCredentialByEmail (getOk : Bool) (st : Keystore)
    (email : String) : Option Credential :=
  match getCredentialsFromKeychain getOk st with
  | JsVal.credList credentials =>
    credentials.find? (fun cred => toLowerCase cred.email == toLowerCase email)
  | _ => none

/-- Function `createSession`: stores the session record with the lowercased email and the current time
encrypted in the session slot.  `now` is the `Date.now()` value; `setOk` models
the keychain write resolving. -/
def createSession (setOk : Bool) (now : Nat) (st : Keystore)
    (email : String) : Keystore × Bool :=
  if setOk then
    (setGenericPassword st sessionService
      (Blob.enc (JsVal.sessionObj { email := toLowerCase email, timestamp := now })),
     true)
  else (st, false)

/-- Function `getSession`: reads and decrypts the session slot; `none` on an absent slot,
on a read failure, or when decryption/`JSON.parse` throws.  A payload that
parses as JSON is returned as-is (the `as Session` cast performs no
validation). -/
def getSession (getOk : Bool) (st : Keystore) : Option JsVal :=
  if getOk then
    match getGenericPassword st sessionService with
    | some (Blob.enc v) => some v
    | some (Blob.undecodable _) => none
    | none => none
  else none

/-- Function `clearSession`: resets the session slot; returns the underlying store's
success indicator (`false` when the reset throws). -/
def clearSession (resetOk : Bool) (st : Keystore) : Keystore × Bool :=
  if resetOk then (resetGenericPassword st sessionService, true) else (st, false)

/-- Function `storeUserDataInKeychain`: stores the encrypted user-data mirror under
service `AccountSetup`. -/
def storeUserDataInKeychain (setOk : Bool) (st : Keystore)
    (userData : UserData) : Keystore × Bool :=
  if setOk then
    (setGenericPassword st KEYCHAIN_SERVICE (Blob.enc (JsVal.userObj userData)), true)
  else (st, false)

/-- Function `getUserDataFromKeychain`: reads and decrypts the user-data mirror slot
(service `AccountSetup`); `none` on absence, read failure, or decode failure. -/
def getUserDataFromKeychain (getOk : Bool) (st : Keystore) : Option JsVal :=
  if getOk then
    match getGenericPassword st KEYCHAIN_SERVICE with
    | some (Blob.enc v) => some v
    | some (Blob.undecodable _) => none
    | none => none
  else none

/-- Function `clearUserDataFromKeychain`: resets the user-data mirror slot. -/
def clearUserDataFromKeychain (resetOk : Bool) (st : Keystore) : Keystore × Bool :=
  if resetOk then (resetGenericPassword st KEYCHAIN_SERVICE, true) else (st, false)

/-- Function `handleLogout` in `HomeScreen` (its keychain effect): clears the session
slot, then the user-data mirror slot.  The Redux dispatch and navigation have
no keychain effect and are omitted. -/
def handleLogout (resetSessionOk resetUserDataOk : Bool) (st : Keystore) : Keystore :=
  let st1 := (clearSession resetSessionOk st).1
  (clearUserDataFromKeychain resetUserDataOk st1).1

/-! ## Login lockout state machine (`LoginScreen`) -/

/-- Constant `MAX_FAILED_ATTEMPTS` of `LoginScreen`. -/
def MAX_FAILED_ATTEMPTS : Nat := 5

/-- The `failedAttempts` / `isLockedOut` component state of `LoginScreen`. -/
structure LockoutState where
  failedAttempts : Nat
  isLockedOut : Bool
deriving DecidableEq, Repr

/-- Initial hook state: `useState(0)` / `useState(false)`. -/
def initialLockoutState : LockoutState :=
  { failedAttempts := 0, isLockedOut := false }

/-- One `onSubmit` of the login form, restricted to its lockout effect.
`isValid` is the result `validateCredentials` would return if invoked.  The
second component records whether `validateCredentials` was actually invoked:
when `isLockedOut` is set the submit returns before reaching it. -/
def onSubmitLockout (st : LockoutState) (isValid : Bool) : LockoutState × Bool :=
  if st.isLockedOut then (st, false)
  else if !isValid then
    let newAttempts := st.failedAttempts + 1
    if MAX_FAILED_ATTEMPTS ≤ newAttempts then
      ({ failedAttempts := newAttempts, isLockedOut := true }, true)
    else
      ({ failedAttempts := newAttempts, isLockedOut := false }, true)
  else
    ({ failedAttempts := 0, isLockedOut := false }, true)

/-- The `useEffect` on `formik.values.email`: any change of the email field
resets `failedAttempts` to 0 and `isLockedOut` to false. -/
def onEmailChange (_st : LockoutState) : LockoutState :=
  initialLockoutState

/-- Runs `n` consecutive submits whose validation result is a failure. -/
def submitFailures (st : LockoutState) : Nat → LockoutState
  | 0 => st
  | n + 1 => submitFailures (onSubmitLockout st false).1 n

/-! ## Upsert call sequences (for the uniqueness invariant) -/

/-- The arguments of one `storeCredentialsInKeychain` call, together with the
resolution behaviour of its two underlying keychain calls. -/
structure UpsertCall where
  getOk : Bool
  setOk : Bool
  email : String
  password : String
  firstName : String
  lastName : String
  phoneNumber : String

/-- The credential stored by an `UpsertCall`. -/
def UpsertCall.credential (c : UpsertCall) : Credential :=
  { email := toLowerCase c.email, password := c.password, firstName := c.firstName,
    lastName := c.lastName, phoneNumber := c.phoneNumber }

/-- Run a sequence of `storeCredentialsInKeychain` calls, threading the
keychain state. -/
def runUpserts (st : Keystore) (calls : List UpsertCall) : Keystore :=
  calls.foldl
    (fun s c =>
      (storeCredentialsInKeychain c.getOk c.setOk s c.email c.password
        c.firstName c.lastName c.phoneNumber).1)
    st

/-- Property that a list has at most one entry per normalized email: for every email, the stored list
has at most one entry whose lowercased email equals it. -/
def UniqueByEmail (cs : List Credential) : Prop :=
  ∀ e : String, (cs.filter (fun c => toLowerCase c.email == e)).length ≤ 1

/-- Invariant of the credentials slot: absent, or an encrypted credential array
with at most one entry per normalized email. -/
def CredsSlotInv (ob : Option Blob) : Prop :=
  ob = none ∨ ∃ cs, ob = some (Blob.enc (JsVal.credList cs)) ∧ UniqueByEmail cs

/-! ## Concrete example data (used by witnesses and counterexamples) -/

/-- A first signup call. -/
def callA : UpsertCall :=
  { getOk := true, setOk := true, email := "Test@Example.com",
    password := "password123", firstName := "John", lastName := "Doe",
    phoneNumber := "5551234567" }

/-- A second signup call whose email differs from `callA`'s only in case. -/
def callB : UpsertCall :=
  { getOk := true, setOk := true, email := "TEST@Example.COM",
    password := "newPass456", firstName := "Jane", lastName := "Smith",
    phoneNumber := "5559876543" }

/-- A concrete stored credential. -/
def cred1 : Credential :=
  { email := "user1@example.com", password := "Password123",
    firstName := "John", lastName := "Doe", phoneNumber := "1234567890" }

/-- A keychain holding exactly one stored credential. -/
def oneCredStore : Keystore :=
  setGenericPassword emptyKeystore credentialsService
    (Blob.enc (JsVal.credList [cred1]))

/-- A keychain whose credentials slot decrypts to a session-shaped JSON object
and whose session slot decrypts to a JSON array: valid JSON, wrong shape for
both slots (producible by anyone holding the compiled-in static key). -/
def wrongShapeStore : Keystore :=
  setGenericPassword
    (setGenericPassword emptyKeystore credentialsService
      (Blob.enc (JsVal.sessionObj { email := "x@y.com", timestamp := 0 })))
    sessionService (Blob.enc (JsVal.credList []))

/-- A keychain whose credentials and session slots hold payloads on which
decryption or `JSON.parse` throws. -/
def undecodableStore : Keystore :=
  setGenericPassword
    (setGenericPassword emptyKeystore credentialsService (Blob.undecodable 0))
    sessionService (Blob.undecodable 1)

/-! ## Helper lemmas -/

theorem char_toLower_not_upper (c : Char) :
    ¬(c.toLower.toNat ≥ 65 ∧ c.toLower.toNat ≤ 90) := by
  simp only [Char.toLower]
  by_cases h : c.toNat ≥ 65 ∧ c.toNat ≤ 90
  · rw [if_pos h]
    have hv : (c.toNat + 32).isValidChar := Or.inl (by omega)
    have ht : (Char.ofNat (c.toNat + 32)).toNat = c.toNat + 32 := by
      have h2 : (Char.ofNatAux (c.toNat + 32) hv).toNat = c.toNat + 32 := rfl
      rw [Char.ofNat, dif_pos hv]
      exact h2
    omega
  · rw [if_neg h]; omega

theorem char_toLower_idem (c : Char) : c.toLower.toLower = c.toLower := by
  conv_lhs => rw [Char.toLower]
  rw [if_neg (char_toLower_not_upper c)]

theorem toLowerCase_idem (s : String) : toLowerCase (toLowerCase s) = toLowerCase s := by
  simp only [toLowerCase, List.map_map]
  congr 1
  exact List.map_congr_left fun c _ => char_toLower_idem c

theorem upsertList_nil (em : String) (new : Credential) : upsertList em new [] = [new] := rfl

theorem upsertList_cons (em : String) (new c : Credential) (cs : List Credential) :
    upsertList em new (c :: cs) =
      if toLowerCase c.email == em then new :: cs else c :: upsertList em new cs := by
  unfold upsertList
  by_cases h : (toLowerCase c.email == em) = true
  · simp [List.findIdx?_cons, h]
  · rw [if_neg (by simp [h])]
    rw [List.findIdx?_cons, if_neg (by simp [h]), List.findIdx?_start_succ]
    cases hf : cs.findIdx? (fun cred => toLowerCase cred.email == em) with
    | none => simp [hf]
    | some i => simp [hf]

theorem find?_upsertList (em : String) (new : Credential) (cs : List Credential)
    (hn : (toLowerCase new.email == em) = true) :
    (upsertList em new cs).find? (fun cred => toLowerCase cred.email == em) = some new := by
  induction cs with
  | nil => simp [upsertList_nil, List.find?_cons, hn]
  | cons c cs ih =>
    rw [upsertList_cons]
    by_cases h : (toLowerCase c.email == em) = true
    · simp [h, List.find?_cons, hn]
    · rw [if_neg (by simp [h]), List.find?_cons]
      simp only [h]
      exact ih

theorem filter_upsertList_self (em : String) (new : Credential) (cs : List Credential)
    (hn : (toLowerCase new.email == em) = true)
    (hu : (cs.filter (fun cred => toLowerCase cred.email == em)).length ≤ 1) :
    (upsertList em new cs).filter (fun cred => toLowerCase cred.email == em) = [new] := by
  induction cs with
  | nil => simp [upsertList_nil, List.filter_cons, hn]
  | cons c cs ih =>
    rw [upsertList_cons]
    by_cases h : (toLowerCase c.email == em) = true
    · rw [if_pos h, List.filter_cons, if_pos hn]
      have h0 : (cs.filter (fun cred => toLowerCase cred.email == em)) = [] := by
        rw [List.filter_cons, if_pos h] at hu
        simp only [List.length_cons] at hu
        have := Nat.le_of_succ_le_succ hu
        exact List.length_eq_zero.mp (Nat.le_zero.mp this)
      rw [h0]
    · rw [if_neg (by simp [h]), List.filter_cons]
      simp only [h, if_false]
      rw [List.filter_cons] at hu
      simp only [h, if_false] at hu
      exact ih hu

theorem filter_upsertList_other (em : String) (new : Credential) (cs : List Credential)
    (q : Credential → Bool)
    (hqn : q new = false)
    (hcompat : ∀ cred, (toLowerCase cred.email == em) = true → q cred = false) :
    (upsertList em new cs).filter q = cs.filter q := by
  induction cs with
  | nil => simp [upsertList_nil, List.filter_cons, hqn]
  | cons c cs ih =>
    rw [upsertList_cons]
    by_cases h : (toLowerCase c.email == em) = true
    · rw [if_pos h]
      rw [List.filter_cons, List.filter_cons, hqn, hcompat c h]
      simp
    · rw [if_neg (by simp [h]), List.filter_cons, List.filter_cons]
      cases hq : q c <;> simp [hq, ih]

theorem UniqueByEmail_nil : UniqueByEmail [] := by
  intro e; simp [List.filter_nil]

theorem UniqueByEmail_upsertList (em : String) (new : Credential) (cs : List Credential)
    (hn : toLowerCase new.email = em) (hu : UniqueByEmail cs) :
    UniqueByEmail (upsertList em new cs) := by
  intro e
  by_cases he : em = e
  · subst he
    rw [filter_upsertList_self em new cs (by rw [hn]; exact beq_self_eq_true em) (hu em)]
    simp
  · rw [filter_upsertList_other em new cs _ (by rw [hn]; exact beq_eq_false_iff_ne.mpr he)
      (fun cred hc => by rw [show toLowerCase cred.email = em from by rwa [beq_iff_eq] at hc]
                         exact beq_eq_false_iff_ne.mpr he)]
    exact hu e

theorem getGenericPassword_set_self (st : Keystore) (svc : String) (b : Blob) :
    getGenericPassword (setGenericPassword st svc b) svc = some b := by
  simp [getGenericPassword, setGenericPassword]

theorem getGenericPassword_set_ne (st : Keystore) (svc svc' : String) (b : Blob)
    (h : svc' ≠ svc) :
    getGenericPassword (setGenericPassword st svc b) svc' = getGenericPassword st svc' := by
  simp [getGenericPassword, setGenericPassword, h]

theorem getGenericPassword_reset_self (st : Keystore) (svc : String) :
    getGenericPassword (resetGenericPassword st svc) svc = none := by
  simp [getGenericPassword, resetGenericPassword]

theorem getGenericPassword_reset_ne (st : Keystore) (svc svc' : String)
    (h : svc' ≠ svc) :
    getGenericPassword (resetGenericPassword st svc) svc' = getGenericPassword st svc' := by
  simp [getGenericPassword, resetGenericPassword, h]

/-- Under the slot invariant, any read of the credentials slot yields some
credential list with unique normalized emails. -/
theorem getCreds_of_inv {st : Keystore}
    (hinv : CredsSlotInv (getGenericPassword st credentialsService)) (g : Bool) :
    ∃ cs, getCredentialsFromKeychain g st = JsVal.credList cs ∧ UniqueByEmail cs := by
  cases g with
  | false => exact ⟨[], rfl, UniqueByEmail_nil⟩
  | true =>
    unfold getCredentialsFromKeychain
    rcases hinv with h | ⟨cs, h, hu⟩
    · rw [h]; exact ⟨[], rfl, UniqueByEmail_nil⟩
    · rw [h]; exact ⟨cs, rfl, hu⟩

/-- One `storeCredentialsInKeychain` call preserves the credentials-slot
invariant. -/
theorem storeCreds_slot_inv (g s : Bool) (st : Keystore) (e p f l ph : String)
    (hinv : CredsSlotInv (getGenericPassword st credentialsService)) :
    CredsSlotInv
      (getGenericPassword (storeCredentialsInKeychain g s st e p f l ph).1
        credentialsService) := by
  obtain ⟨cs, hcs, hu⟩ := getCreds_of_inv hinv g
  unfold storeCredentialsInKeychain
  rw [hcs]
  cases s with
  | false => exact hinv
  | true =>
    simp only [if_pos]
    rw [getGenericPassword_set_self]
    exact Or.inr ⟨_, rfl,
      UniqueByEmail_upsertList _ _ _ (toLowerCase_idem e) hu⟩

/-- A sequence of `storeCredentialsInKeychain` calls preserves the
credentials-slot invariant. -/
theorem runUpserts_inv (calls : List UpsertCall) :
    ∀ st : Keystore, CredsSlotInv (getGenericPassword st credentialsService) →
      CredsSlotInv (getGenericPassword (runUpserts st calls) credentialsService) := by
  induction calls with
  | nil => intro st h; exact h
  | cons c rest ih =>
    intro st h
    rw [runUpserts, List.foldl_cons]
    exact ih _ (storeCreds_slot_inv c.getOk c.setOk st c.email c.password
      c.firstName c.lastName c.phoneNumber h)

/-! ## Claim theorems -/

/-- C1: For every sequence of upsert calls (`storeCredentialsInKeychain`)
starting from an empty credentials slot, the stored credential list contains at
most one entry per normalized (lowercased) email (`CredsSlotInv`); in
particular, after a further upsert call whose keychain write succeeds (e.g. a
second upsert with the same normalized email), the stored list has exactly one
entry for that call's normalized email, whose password, firstName, lastName and
phoneNumber are those of that last call. -/
theorem upsert_normalized_email_unique (st : Keystore) (calls : List UpsertCall)
    (c : UpsertCall)
    (h0 : getGenericPassword st credentialsService = none)
    (hset : c.setOk = true) :
    CredsSlotInv (getGenericPassword (runUpserts st calls) credentialsService)
    ∧ ∃ cs,
        getGenericPassword (runUpserts st (calls ++ [c])) credentialsService
          = some (Blob.enc (JsVal.credList cs))
        ∧ UniqueByEmail cs
        ∧ cs.filter (fun cred => toLowerCase cred.email == toLowerCase c.email)
            = [c.credential] := by
  have hinv0 : CredsSlotInv (getGenericPassword st credentialsService) := Or.inl h0
  have hinvM := runUpserts_inv calls st hinv0
  refine ⟨hinvM, ?_⟩
  have happ : runUpserts st (calls ++ [c])
      = (storeCredentialsInKeychain c.getOk c.setOk (runUpserts st calls) c.email
          c.password c.firstName c.lastName c.phoneNumber).1 := by
    rw [runUpserts, List.foldl_append]
    rfl
  rw [happ]
  obtain ⟨cs, hcs, hu⟩ := getCreds_of_inv hinvM c.getOk
  unfold storeCredentialsInKeychain
  rw [hcs, hset]
  simp only [if_pos]
  rw [getGenericPassword_set_self]
  refine ⟨_, rfl, UniqueByEmail_upsertList _ _ _ (toLowerCase_idem c.email) hu, ?_⟩
  exact filter_upsertList_self _ _ _
    (by show (toLowerCase (toLowerCase c.email) == toLowerCase c.email) = true
        rw [toLowerCase_idem]
        exact beq_self_eq_true _)
    (hu _)

/-- Witness for C1: two concrete upserts whose emails differ only in case,
starting from the empty keychain. -/
theorem upsert_normalized_email_unique_witness :
    getGenericPassword emptyKeystore credentialsService = none
    ∧ callB.setOk = true
    ∧ (CredsSlotInv (getGenericPassword (runUpserts emptyKeystore [callA]) credentialsService)
       ∧ ∃ cs,
          getGenericPassword (runUpserts emptyKeystore ([callA] ++ [callB])) credentialsService
            = some (Blob.enc (JsVal.credList cs))
          ∧ UniqueByEmail cs
          ∧ cs.filter (fun cred => toLowerCase cred.email == toLowerCase callB.email)
              = [callB.credential]) :=
  ⟨rfl, rfl, upsert_normalized_email_unique emptyKeystore [callA] callB rfl rfl⟩

/-- C2: After a successful upsert (`storeCredentialsInKeychain`),
`getCredentialByEmail` applied to the same email returns the stored credential,
whose email is the lowercased input and whose remaining fields are exactly the
stored ones. -/
theorem upsert_findByEmail_roundtrip (g s : Bool) (st : Keystore) (e p f l ph : String)
    (hsucc : (storeCredentialsInKeychain g s st e p f l ph).2 = true) :
    getCredentialByEmail true (storeCredentialsInKeychain g s st e p f l ph).1 e
      = some { email := toLowerCase e, password := p, firstName := f,
               lastName := l, phoneNumber := ph } := by
  rcases hcs : getCredentialsFromKeychain g st with cs | s0 | u0 | n0
  case sessionObj =>
    exfalso
    unfold storeCredentialsInKeychain at hsucc
    rw [hcs] at hsucc
    simp at hsucc
  case userObj =>
    exfalso
    unfold storeCredentialsInKeychain at hsucc
    rw [hcs] at hsucc
    simp at hsucc
  case other =>
    exfalso
    unfold storeCredentialsInKeychain at hsucc
    rw [hcs] at hsucc
    simp at hsucc
  case credList =>
    cases s with
    | false =>
      exfalso
      unfold storeCredentialsInKeychain at hsucc
      rw [hcs] at hsucc
      simp at hsucc
    | true =>
      have hst : (storeCredentialsInKeychain g true st e p f l ph).1
          = setGenericPassword st credentialsService
              (Blob.enc (JsVal.credList (upsertList (toLowerCase e)
                { email := toLowerCase e, password := p, firstName := f,
                  lastName := l, phoneNumber := ph } cs))) := by
        unfold storeCredentialsInKeychain
        rw [hcs]
        rfl
      rw [hst]
      unfold getCredentialByEmail getCredentialsFromKeychain
      rw [if_pos rfl, getGenericPassword_set_self]
      exact find?_upsertList _ _ _
        (by show (toLowerCase (toLowerCase e) == toLowerCase e) = true
            rw [toLowerCase_idem]
            exact beq_self_eq_true _)

/-- Witness for C2: a concrete signup followed by lookup. -/
theorem upsert_findByEmail_roundtrip_witness :
    (storeCredentialsInKeychain true true emptyKeystore "Test@Example.com"
       "password123" "John" "Doe" "5551234567").2 = true
    ∧ getCredentialByEmail true
        (storeCredentialsInKeychain true true emptyKeystore "Test@Example.com"
          "password123" "John" "Doe" "5551234567").1 "Test@Example.com"
      = some { email := toLowerCase "Test@Example.com", password := "password123",
               firstName := "John", lastName := "Doe", phoneNumber := "5551234567" } :=
  ⟨by decide, upsert_findByEmail_roundtrip true true emptyKeystore
    "Test@Example.com" "password123" "John" "Doe" "5551234567" (by decide)⟩

/-- Characterization of `validateCredentials` on a stored credential list. -/
theorem validateCredentials_iff (st : Keystore) (cs : List Credential) (e p : String)
    (h : getGenericPassword st credentialsService = some (Blob.enc (JsVal.credList cs))) :
    validateCredentials true st e p = true
      ↔ ∃ c ∈ cs, toLowerCase c.email = toLowerCase e ∧ c.password = p := by
  unfold validateCredentials getCredentialsFromKeychain
  rw [if_pos rfl, h]
  show (cs.find? _).isSome = true ↔ _
  simp only [List.find?_isSome, Bool.and_eq_true, beq_iff_eq]

/-- C3: `validateCredentials` is true iff some stored entry's normalized email
equals the normalized input email and its password is exactly (case-sensitively)
the supplied password; and on a list with unique normalized emails, changing
only the case of a password that validates makes validation false. -/
theorem validateCredentials_correct (st : Keystore) (cs : List Credential)
    (e p p' : String)
    (h : getGenericPassword st credentialsService = some (Blob.enc (JsVal.credList cs))) :
    (validateCredentials true st e p = true
       ↔ ∃ c ∈ cs, toLowerCase c.email = toLowerCase e ∧ c.password = p)
    ∧ (UniqueByEmail cs → toLowerCase p' = toLowerCase p → p' ≠ p →
        validateCredentials true st e p = true →
        validateCredentials true st e p' = false) := by
  refine ⟨validateCredentials_iff st cs e p h, ?_⟩
  intro hu _hcase hne hv
  by_contra hv'
  rw [Bool.not_eq_false] at hv'
  obtain ⟨c1, hm1, he1, hp1⟩ := (validateCredentials_iff st cs e p h).mp hv
  obtain ⟨c2, hm2, he2, hp2⟩ := (validateCredentials_iff st cs e p' h).mp hv'
  have hf1 : c1 ∈ cs.filter (fun c => toLowerCase c.email == toLowerCase e) :=
    List.mem_filter.mpr ⟨hm1, by rw [he1]; exact beq_self_eq_true _⟩
  have hf2 : c2 ∈ cs.filter (fun c => toLowerCase c.email == toLowerCase e) :=
    List.mem_filter.mpr ⟨hm2, by rw [he2]; exact beq_self_eq_true _⟩
  have hlen := hu (toLowerCase e)
  have hc12 : c1 = c2 := by
    rcases hl : cs.filter (fun c => toLowerCase c.email == toLowerCase e) with _ | ⟨x, xs⟩
    · rw [hl] at hf1
      exact absurd hf1 (List.not_mem_nil c1)
    · rw [hl] at hf1 hf2 hlen
      cases xs with
      | nil =>
        have e1 : c1 = x := by simpa using hf1
        have e2 : c2 = x := by simpa using hf2
        rw [e1, e2]
      | cons y ys => simp at hlen
  apply hne
  rw [← hp2, ← hc12, hp1]

/-- Witness for C3: one stored credential, matching and case-changed passwords. -/
theorem validateCredentials_correct_witness :
    getGenericPassword oneCredStore credentialsService
      = some (Blob.enc (JsVal.credList [cred1]))
    ∧ ((validateCredentials true oneCredStore "USER1@example.com" "Password123" = true
         ↔ ∃ c ∈ [cred1], toLowerCase c.email = toLowerCase "USER1@example.com"
             ∧ c.password = "Password123")
       ∧ (UniqueByEmail [cred1] → toLowerCase "password123" = toLowerCase "Password123" →
           "password123" ≠ "Password123" →
           validateCredentials true oneCredStore "USER1@example.com" "Password123" = true →
           validateCredentials true oneCredStore "USER1@example.com" "password123" = false)) :=
  ⟨by decide, validateCredentials_correct oneCredStore [cred1]
    "USER1@example.com" "Password123" "password123" (by decide)⟩

/-- C4: For emails equal up to letter case, `storeCredentialsInKeychain`,
`validateCredentials` and `getCredentialByEmail` produce identical results and
identical resulting keychain states. -/
theorem email_case_insensitive (e1 e2 : String) (h : toLowerCase e1 = toLowerCase e2)
    (g s : Bool) (st : Keystore) (p f l ph pwd : String) :
    storeCredentialsInKeychain g s st e1 p f l ph
      = storeCredentialsInKeychain g s st e2 p f l ph
    ∧ validateCredentials g st e1 pwd = validateCredentials g st e2 pwd
    ∧ getCredentialByEmail g st e1 = getCredentialByEmail g st e2 := by
  refine ⟨?_, ?_, ?_⟩ <;>
    simp only [storeCredentialsInKeychain, validateCredentials, getCredentialByEmail, h]

/-- Witness for C4: two concrete emails differing only in case. -/
theorem email_case_insensitive_witness :
    toLowerCase "User1@Example.COM" = toLowerCase "user1@example.com"
    ∧ (storeCredentialsInKeychain true true oneCredStore "User1@Example.COM"
         "pw" "A" "B" "1"
        = storeCredentialsInKeychain true true oneCredStore "user1@example.com"
           "pw" "A" "B" "1"
       ∧ validateCredentials true oneCredStore "User1@Example.COM" "Password123"
          = validateCredentials true oneCredStore "user1@example.com" "Password123"
       ∧ getCredentialByEmail true oneCredStore "User1@Example.COM"
          = getCredentialByEmail true oneCredStore "user1@example.com") :=
  ⟨by decide, email_case_insensitive "User1@Example.COM" "user1@example.com"
    (by decide) true true oneCredStore "pw" "A" "B" "1" "Password123"⟩

/-- C5: The login lockout machine: `MAX_FAILED_ATTEMPTS` is 5; four consecutive
failures leave the screen unlocked while five drive it to locked-out; once
locked out, a further submit returns the state unchanged and does not invoke
`validateCredentials` (second component `false`); and any email-field change
resets the state to `Active(0)`. -/
theorem login_lockout_machine :
    MAX_FAILED_ATTEMPTS = 5
    ∧ (submitFailures initialLockoutState 4).isLockedOut = false
    ∧ (submitFailures initialLockoutState 5).isLockedOut = true
    ∧ (∀ b : Bool, onSubmitLockout (submitFailures initialLockoutState 5) b
        = (submitFailures initialLockoutState 5, false))
    ∧ (∀ st : LockoutState, onEmailChange st = initialLockoutState) :=
  ⟨rfl, by decide, by decide, by decide, fun _ => rfl⟩

/-- C6 counterexample: a slot payload that decrypts to valid JSON of the wrong
shape is not treated as absent — `getCredentialsFromKeychain` returns the
session-shaped object stored in the credentials slot (the `as Credential[]`
cast performs no validation), not the empty list, and `getSession` returns the
array stored in the session slot, not `none`. -/
theorem decode_wrong_shape_cex :
    getCredentialsFromKeychain true wrongShapeStore ≠ JsVal.credList []
    ∧ getSession true wrongShapeStore ≠ none := by
  constructor
  · decide
  · decide

/-- C6 amended: for payloads on which decryption or `JSON.parse` throws
(tampered ciphertext, corrupted blob, wrong key, empty), `getCredentialsFromKeychain`
returns the empty list and `getSession` returns `none`, with no error reaching
the caller (both functions are total); payloads that decrypt to valid JSON of
an unexpected shape are instead returned unvalidated. -/
theorem undecodable_treated_as_absent (st : Keystore) (n m : Nat)
    (hc : getGenericPassword st credentialsService = some (Blob.undecodable n))
    (hs : getGenericPassword st sessionService = some (Blob.undecodable m)) :
    getCredentialsFromKeychain true st = JsVal.credList []
    ∧ getSession true st = none := by
  unfold getCredentialsFromKeychain getSession
  rw [if_pos rfl, if_pos rfl, hc, hs]
  exact ⟨rfl, rfl⟩

/-- Witness for the amended C6: a concrete keychain with undecodable blobs in
both slots. -/
theorem undecodable_treated_as_absent_witness :
    getGenericPassword undecodableStore credentialsService = some (Blob.undecodable 0)
    ∧ getGenericPassword undecodableStore sessionService = some (Blob.undecodable 1)
    ∧ (getCredentialsFromKeychain true undecodableStore = JsVal.credList []
       ∧ getSession true undecodableStore = none) :=
  ⟨by decide, by decide,
    undecodable_treated_as_absent undecodableStore 0 1 (by decide) (by decide)⟩

/-- C7 counterexample: when the underlying keystore read throws
(`getOk = false`) but the write succeeds, `storeCredentialsInKeychain` returns
`true` — a failure of the underlying keystore occurred during the operation,
yet the result is not `false` (the read failure is swallowed inside
`getCredentialsFromKeychain`, which returns `[]`). -/
theorem store_swallows_read_failure_cex :
    (storeCredentialsInKeychain false true emptyKeystore "Test@Example.com"
      "password123" "John" "Doe" "5551234567").2 = true := by
  decide

/-- C7 amended: whenever the loaded credentials payload is an array (which
includes every state the repository itself produces, an absent slot, an
undecodable slot, and a failed read — all loaded as `[]`),
`storeCredentialsInKeychain` returns exactly the success value of the keystore
write: `false` iff the write fails. -/
theorem store_returns_setOk (g s : Bool) (st : Keystore) (e p f l ph : String)
    (hshape : ∃ cs, getCredentialsFromKeychain g st = JsVal.credList cs) :
    (storeCredentialsInKeychain g s st e p f l ph).2 = s := by
  obtain ⟨cs, hcs⟩ := hshape
  unfold storeCredentialsInKeychain
  rw [hcs]
  cases s <;> simp

/-- Witness for the amended C7: a failed write returns `false`; a successful
write after a failed read returns `true`. -/
theorem store_returns_setOk_witness :
    (∃ cs, getCredentialsFromKeychain false emptyKeystore = JsVal.credList cs)
    ∧ (storeCredentialsInKeychain false false emptyKeystore "Test@Example.com"
        "password123" "John" "Doe" "5551234567").2 = false :=
  ⟨⟨[], rfl⟩, store_returns_setOk false false emptyKeystore "Test@Example.com"
    "password123" "John" "Doe" "5551234567" ⟨[], rfl⟩⟩

/-- C8: After a successful `createSession`, `getSession` returns a session
whose email is the lowercased input and whose timestamp (the `Date.now()` value
at creation) is at least any instant `t0` preceding the call; after
`clearSession`, `getSession` returns `none`; and a subsequent `createSession`
followed by `getSession` succeeds again. -/
theorem session_create_current_clear (st : Keystore) (e e2 : String)
    (now now2 t0 : Nat) (h : t0 ≤ now) :
    (createSession true now st e).2 = true
    ∧ getSession true (createSession true now st e).1
        = some (JsVal.sessionObj { email := toLowerCase e, timestamp := now })
    ∧ (∃ s : Session,
        getSession true (createSession true now st e).1 = some (JsVal.sessionObj s)
        ∧ s.email = toLowerCase e ∧ t0 ≤ s.timestamp)
    ∧ (clearSession true (createSession true now st e).1).2 = true
    ∧ getSession true (clearSession true (createSession true now st e).1).1 = none
    ∧ getSession true
        (createSession true now2 (clearSession true (createSession true now st e).1).1 e2).1
        = some (JsVal.sessionObj { email := toLowerCase e2, timestamp := now2 }) := by
  have hcreate : ∀ (st' : Keystore) (n : Nat) (em : String),
      getSession true (createSession true n st' em).1
        = some (JsVal.sessionObj { email := toLowerCase em, timestamp := n }) := by
    intro st' n em
    show getSession true (setGenericPassword st' sessionService _) = _
    unfold getSession
    rw [if_pos rfl, getGenericPassword_set_self]
  refine ⟨rfl, hcreate st now e, ⟨_, hcreate st now e, rfl, h⟩, rfl, ?_, hcreate _ now2 e2⟩
  show getSession true (resetGenericPassword _ sessionService) = none
  unfold getSession
  rw [if_pos rfl, getGenericPassword_reset_self]

/-- Witness for C8: concrete session lifecycle on the empty keychain. -/
theorem session_create_current_clear_witness :
    (3 : Nat) ≤ 7
    ∧ ((createSession true 7 emptyKeystore "Test@Example.com").2 = true
       ∧ getSession true (createSession true 7 emptyKeystore "Test@Example.com").1
           = some (JsVal.sessionObj
               { email := toLowerCase "Test@Example.com", timestamp := 7 })
       ∧ (∃ s : Session,
           getSession true (createSession true 7 emptyKeystore "Test@Example.com").1
             = some (JsVal.sessionObj s)
           ∧ s.email = toLowerCase "Test@Example.com" ∧ 3 ≤ s.timestamp)
       ∧ (clearSession true (createSession true 7 emptyKeystore "Test@Example.com").1).2 = true
       ∧ getSession true
           (clearSession true (createSession true 7 emptyKeystore "Test@Example.com").1).1 = none
       ∧ getSession true
           (createSession true 9
             (clearSession true (createSession true 7 emptyKeystore "Test@Example.com").1).1
             "other@example.com").1
           = some (JsVal.sessionObj
               { email := toLowerCase "other@example.com", timestamp := 9 })) :=
  ⟨by decide, session_create_current_clear emptyKeystore "Test@Example.com"
    "other@example.com" 7 9 3 (by decide)⟩

/-- C9: The logout flow's keychain effect leaves the credentials slot
unchanged: whatever `getCredentialsFromKeychain` read before `handleLogout`,
it reads the same after, for every keychain state and every outcome of the two
clears. -/
theorem logout_preserves_credentials (st : Keystore) (rs ru g : Bool) :
    getCredentialsFromKeychain g (handleLogout rs ru st)
      = getCredentialsFromKeychain g st := by
  have hk : getGenericPassword (handleLogout rs ru st) credentialsService
      = getGenericPassword st credentialsService := by
    cases rs <;> cases ru
    · rfl
    · show getGenericPassword (resetGenericPassword st KEYCHAIN_SERVICE)
          credentialsService = _
      exact getGenericPassword_reset_ne st KEYCHAIN_SERVICE credentialsService (by decide)
    · show getGenericPassword (resetGenericPassword st sessionService)
          credentialsService = _
      exact getGenericPassword_reset_ne st sessionService credentialsService (by decide)
    · show getGenericPassword
          (resetGenericPassword (resetGenericPassword st sessionService) KEYCHAIN_SERVICE)
          credentialsService = _
      rw [getGenericPassword_reset_ne _ KEYCHAIN_SERVICE credentialsService (by decide)]
      exact getGenericPassword_reset_ne st sessionService credentialsService (by decide)
  cases g with
  | false => rfl
  | true =>
    unfold getCredentialsFromKeychain
    rw [if_pos rfl, if_pos rfl, hk]

/-- C10 (implicit): the logout flow also clears the userData mirror slot
(service `AccountSetup`): after `handleLogout` with both clears succeeding,
`getUserDataFromKeychain` returns `none` and `getSession` returns `none`, while
the credentials slot is untouched. -/
theorem logout_clears_userdata_mirror (st : Keystore) (g g2 : Bool) :
    getUserDataFromKeychain g (handleLogout true true st) = none
    ∧ getSession g2 (handleLogout true true st) = none
    ∧ getGenericPassword (handleLogout true true st) credentialsService
        = getGenericPassword st credentialsService := by
  have hL : handleLogout true true st
      = resetGenericPassword (resetGenericPassword st sessionService) KEYCHAIN_SERVICE := rfl
  refine ⟨?_, ?_, ?_⟩
  · cases g with
    | false => rfl
    | true =>
      rw [hL]
      unfold getUserDataFromKeychain
      rw [if_pos rfl, getGenericPassword_reset_self]
  · cases g2 with
    | false => rfl
    | true =>
      rw [hL]
      unfold getSession
      rw [if_pos rfl,
        getGenericPassword_reset_ne _ KEYCHAIN_SERVICE sessionService (by decide),
        getGenericPassword_reset_self]
  · rw [hL,
      getGenericPassword_reset_ne _ KEYCHAIN_SERVICE credentialsService (by decide)]
    exact getGenericPassword_reset_ne st sessionService credentialsService (by decide)

end AccountSetup
